import Mathlib

/-!
# Traffic Master backend: admin authentication and question store

A shallow embedding of `src/index.js` (an Express application over two MongoDB
collections) together with theorems about its request handlers.

* Values travelling through a handler untouched are `JsVal`s.
* The libraries the file requires (`jsonwebtoken`, `bcrypt`) are a record of
  functions, `Lib`; each call may throw, which is the `Except` in its type.
* The two collections are lists of documents in natural order; every driver
  call may reject, as scheduled by `Ctx.dbFault`.
* A thrown JavaScript exception is `Except.error`; `try`/`catch` is a `match`.
-/

namespace TrafficMaster

/-! ## Values -/

/-- The message of a thrown JavaScript error. -/
abbrev Failure := String

deriving instance DecidableEq for Except

/-- A JSON value as the handlers carry it. No handler looks inside a number,
array or object, so those are kept as their JSON text. -/
inductive JsVal where
  | undefined
  | null
  | str (s : String)
  | json (text : String)
  deriving DecidableEq, Repr

/-- A parsed request body: the own properties of `req.body` in the order
`Object.keys` lists them (insertion order for keys that are not array indices). -/
abbrev Body := List (String × JsVal)

/-- Property read `req.body[key]`: the first property of that name, else `undefined`. -/
def bodyGet : Body → String → JsVal
  | [], _ => .undefined
  | (k, v) :: rest, key => if k = key then v else bodyGet rest key

/-! ## Option reconstruction of `/questions/add-question` (lines 140-146) -/

/-- Regular expression class `\d`: the ASCII digits. -/
def isDigit (c : Char) : Bool := decide (48 ≤ c.toNat) && decide (c.toNat ≤ 57)

/-- `key.startsWith("options[")`. -/
def startsWithOptions (key : String) : Bool :=
  "options[".toList.isPrefixOf key.toList

/-- `key.match(/\d+/)`: the leftmost maximal run of digits, `none` for `null`. -/
def matchDigits (key : String) : Option (List Char) :=
  match (key.toList.dropWhile (fun c => !isDigit c)).takeWhile isDigit with
  | [] => none
  | d :: ds => some (d :: ds)

/-- The integer a string of decimal digits denotes. -/
def decimalValue (ds : List Char) : Nat :=
  ds.foldl (fun acc c => 10 * acc + (c.toNat - 48)) 0

/-- A non-negative JavaScript number with an integer value, or `Infinity`. -/
inductive JsNum where
  | fin (n : Nat)
  | inf
  deriving DecidableEq, Repr

/-- The least `e ≥ start` with `n / 2^e < 2^53`, searched upwards. -/
def roundingExponent (n : Nat) : Nat → Nat → Nat
  | 0, e => e
  | fuel + 1, e => if n / 2 ^ e < 2 ^ 53 then e else roundingExponent n fuel (e + 1)

/-- The Number nearest to the integer `n` (binary64, ties to even). Integers
below `2^53` are exact; from `2^1024` on the result is `Infinity`. -/
def toNumber (n : Nat) : JsNum :=
  if n < 2 ^ 53 then .fin n
  else
    let e := roundingExponent n n 0
    let q := n / 2 ^ e
    let r := n % 2 ^ e
    let half := 2 ^ (e - 1)
    let q1 := if half < r ∨ (r = half ∧ q % 2 = 1) then q + 1 else q
    if q1 * 2 ^ e < 2 ^ 1024 then .fin (q1 * 2 ^ e) else .inf

/-- `parseInt(digits)` on a run of decimal digits. -/
def parseInt (ds : List Char) : JsNum := toNumber (decimalValue ds)

/-- The sign of `x - y` as the sort reads it: `Infinity - Infinity` is `NaN`,
which a comparator result treats as `+0`. -/
def JsNum.sub : JsNum → JsNum → Int
  | .fin a, .fin b => (a : Int) - (b : Int)
  | .fin _, .inf => -1
  | .inf, .fin _ => 1
  | .inf, .inf => 0

/-- The comparator of line 144. Indexing `null` with `[0]` throws a `TypeError`;
the left operand is evaluated first. -/
def compareKeys (a b : String) : Except Failure Int :=
  match matchDigits a with
  | none => .error "TypeError: Cannot read properties of null (reading '0')"
  | some da =>
    match matchDigits b with
    | none => .error "TypeError: Cannot read properties of null (reading '0')"
    | some db => .ok ((parseInt da).sub (parseInt db))

/-- One insertion step of the sort: `x` preceded every element of the sorted
`ys` in the input, so it stays in front of the first `y` with `cmp x y ≤ 0`. -/
def insertSorted {α : Type} (cmp : α → α → Except Failure Int) (x : α) :
    List α → Except Failure (List α)
  | [] => .ok [x]
  | y :: ys =>
    match cmp x y with
    | .error e => .error e
    | .ok c =>
      if c ≤ 0 then .ok (x :: y :: ys)
      else
        match insertSorted cmp x ys with
        | .error e => .error e
        | .ok r => .ok (y :: r)

/-- `Array.prototype.sort(cmp)`: a stable comparison sort; an exception thrown
by the comparator leaves the sort. With a comparator that is a weak order every
stable sort returns this list, and on two or more elements every comparison sort
hands each element to the comparator at least once. -/
def sortWith {α : Type} (cmp : α → α → Except Failure Int) :
    List α → Except Failure (List α)
  | [] => .ok []
  | x :: xs =>
    match sortWith cmp xs with
    | .error e => .error e
    | .ok s => insertSorted cmp x s

/-- `Object.keys(req.body).filter((key) => key.startsWith("options["))`. -/
def optionKeys (body : Body) : List String :=
  (body.map Prod.fst).filter startsWithOptions

/-- Lines 140-146: the `options` array built from the indexed body fields. -/
def buildOptions (body : Body) : Except Failure (List JsVal) :=
  match sortWith compareKeys (optionKeys body) with
  | .error e => .error e
  | .ok keys => .ok (keys.map (bodyGet body))

/-! ## Documents and collections -/

/-- A BSON ObjectId, as the 96-bit number its 24 hexadecimal digits denote. -/
abbrev ObjectId := Nat

/-- The value of one hexadecimal digit, either case. -/
def hexDigit? (c : Char) : Option Nat :=
  if 48 ≤ c.toNat ∧ c.toNat ≤ 57 then some (c.toNat - 48)
  else if 97 ≤ c.toNat ∧ c.toNat ≤ 102 then some (c.toNat - 87)
  else if 65 ≤ c.toNat ∧ c.toNat ≤ 70 then some (c.toNat - 55)
  else none

/-- The test `/^[0-9a-fA-F]{24}$/` of the driver: exactly 24 hexadecimal digits. -/
def isObjectIdHex (id : String) : Bool :=
  decide (id.toList.length = 24) && id.toList.all (fun c => (hexDigit? c).isSome)

/-- The number a string of hexadecimal digits denotes. -/
def objectIdOfHex (id : String) : ObjectId :=
  id.toList.foldl (fun acc c => 16 * acc + (hexDigit? c).getD 0) 0

/-- The number the 12 bytes of a 12-character ASCII string denote. -/
def objectIdOfBytes (id : String) : ObjectId :=
  id.toList.foldl (fun acc c => 256 * acc + c.toNat) 0

/-- `new ObjectId(id)` on a string. Every release of the driver takes 24
hexadecimal digits as the id they denote and throws on a string that is neither
that nor 12 characters long. Releases before 6 read a 12-character string of
single-byte characters as the 12 bytes of the id (`reads12`), release 6 throws
on it; which release is installed is not recorded in the source. -/
def newObjectId (reads12 : Bool) (id : String) : Except Failure ObjectId :=
  if reads12 && decide (id.toList.length = 12) then
    if id.toList.all (fun c => decide (c.toNat < 128)) then .ok (objectIdOfBytes id)
    else .error "Argument passed in must be a string of 12 bytes"
  else if isObjectIdHex id then .ok (objectIdOfHex id)
  else if reads12 then
    .error ("Argument passed in must be a string of 12 bytes or a string of 24 hex " ++
      "characters or an integer")
  else .error "input must be a 24 character hex string, 12 byte Uint8Array, or an integer"

/-- A document of the `admins` collection. -/
structure AdminDoc where
  id : ObjectId
  username : String
  password : String
  role : JsVal
  deriving DecidableEq, Repr

/-- A field of a question document: a single value or an array of values. -/
inductive Field where
  | val (v : JsVal)
  | list (vs : List JsVal)
  deriving DecidableEq, Repr

/-- A document of the `questions` collection: its `_id` and its named fields. -/
structure QuestionDoc where
  id : ObjectId
  fields : List (String × Field)
  deriving DecidableEq, Repr

/-- The database `traffic-master`: its two collections, each in natural order. -/
structure Db where
  admins : List AdminDoc
  questions : List QuestionDoc
  deriving DecidableEq, Repr

/-- An awaited driver call: it rejects with the scheduled fault, else resolves. -/
def driverCall {α : Type} (fault : Option Failure) (result : α) : Except Failure α :=
  match fault with
  | some e => .error e
  | none => .ok result

/-- `adminCollection.findOne({ username })`: the first document of that username. -/
def findOne (admins : List AdminDoc) (username : String) : Option AdminDoc :=
  admins.find? (fun a => decide (a.username = username))

/-- `updateOne({ username }, { $set: { password } })`: the first match gets the
new password, every other field and document stays. -/
def setPassword (username hash : String) : List AdminDoc → List AdminDoc
  | [] => []
  | a :: rest =>
    if a.username = username then { a with password := hash } :: rest
    else a :: setPassword username hash rest

/-- `deleteOne({ _id })` on the admins: the first document of that id goes. -/
def deleteAdminById (oid : ObjectId) (admins : List AdminDoc) : List AdminDoc :=
  admins.eraseP (fun a => decide (a.id = oid))

/-- `deleteOne({ _id })` on the questions. -/
def deleteQuestionById (oid : ObjectId) (questions : List QuestionDoc) : List QuestionDoc :=
  questions.eraseP (fun q => decide (q.id = oid))

/-- One `$set` entry: the field is overwritten where present, appended otherwise. -/
def setField (name : String) (value : Field) : List (String × Field) → List (String × Field)
  | [] => [(name, value)]
  | (k, v) :: rest =>
    if k = name then (k, value) :: rest else (k, v) :: setField name value rest

/-- `updateOne({ _id }, { $set: updatedQuestion })`: the first document of that id
gets the three fields. -/
def setQuestionFields (oid : ObjectId) (text options correctOption : JsVal) :
    List QuestionDoc → List QuestionDoc
  | [] => []
  | q :: rest =>
    if q.id = oid then
      { q with fields := (setField "correctOption" (.val correctOption)
          (setField "options" (.val options) (setField "text" (.val text) q.fields))) } :: rest
    else q :: setQuestionFields oid text options correctOption rest

/-! ## Libraries, process and request context -/

/-- The decoded payload `jwt.verify` returns, as far as the application reads it. -/
structure Claims where
  username : JsVal
  role : JsVal
  iat : Option Nat
  exp : Option Nat
  deriving DecidableEq, Repr

/-- The functions of `jsonwebtoken` and `bcrypt` that are called. `now` is the
clock in whole seconds, `Math.floor(Date.now() / 1000)`, which is the unit of
the `iat` and `exp` claims; `salt` is the random salt `bcrypt.hash` draws. -/
structure Lib where
  jwtSign : (username role secret : String) → (expiresIn now : Nat) → Except Failure String
  jwtVerify : (token secret : String) → (now : Nat) → Except Failure Claims
  bcryptHash : (data : String) → (rounds : Nat) → (salt : String) → Except Failure String
  bcryptCompare : (data hash : String) → Except Failure Bool

/-- The running process: its libraries, the `JWT_SECRET` environment variable,
and whether the installed driver still reads 12-character strings as ObjectIds. -/
structure Sys where
  lib : Lib
  envJwtSecret : Option String
  reads12 : Bool := false

/-- Line 19: `process.env.JWT_SECRET || "your-secret-key"`. -/
def JWT_SECRET (sys : Sys) : String :=
  match sys.envJwtSecret with
  | none => "your-secret-key"
  | some s => if s = "" then "your-secret-key" else s

/-- What one request draws from outside: the clock, the salt, the id the driver
generates for an inserted document, and for the k-th driver call of the handler
the error it rejects with, if any. A rejected call has changed nothing. -/
structure Ctx where
  now : Nat
  salt : String
  freshId : ObjectId
  dbFault : Nat → Option Failure

/-- `expiresIn: "1h"` in seconds. -/
def oneHour : Nat := 3600

/-! ## Responses -/

/-- A JSON response body. -/
inductive ResBody where
  | error (message : String)
  | token (token : String)
  | message (message : String)
  | insertResult (insertedId : ObjectId)
  | deleteResult (deletedCount : Nat)
  | updateResult (matchedCount : Nat)
  | admins (docs : List AdminDoc)
  | questions (docs : List QuestionDoc)
  deriving DecidableEq, Repr

/-- How a request ends: a response was sent, or an error left the handler
without one. -/
inductive Outcome where
  | responded (status : Nat) (body : ResBody)
  | uncaught (e : Failure)
  deriving DecidableEq, Repr

/-- The status of the response sent, if one was. -/
def Outcome.status : Outcome → Option Nat
  | .responded status _ => some status
  | .uncaught _ => none

/-! ## The gate `verifyAdmin` (lines 21-36) -/

/-- `s.split(" ")`. -/
def splitSpaces (s : String) : List String :=
  (s.toList.splitOn ' ').map String.mk

/-- Line 22: `req.headers.authorization?.split(" ")[1]`, `none` for `undefined`. -/
def bearerToken (authorization : Option String) : Option String :=
  match authorization with
  | none => none
  | some header => (splitSpaces header)[1]?

/-- The decision of the gate: a denial with status and message, or `next()`
with the decoded claims attached as `req.user`. -/
inductive Gate where
  | deny (status : Nat) (message : String)
  | next (user : Claims)
  deriving DecidableEq, Repr

/-- Lines 21-36. The empty string is falsy, like `undefined`. -/
def verifyAdmin (sys : Sys) (now : Nat) (authorization : Option String) : Gate :=
  match bearerToken authorization with
  | none => .deny 401 "Unauthorized: No token provided"
  | some token =>
    if token = "" then .deny 401 "Unauthorized: No token provided"
    else
      match sys.lib.jwtVerify token (JWT_SECRET sys) now with
      | .error _ => .deny 401 "Unauthorized: Invalid token"
      | .ok decoded =>
        if decoded.role ≠ .str "admin" then .deny 403 "Forbidden: Access denied"
        else .next decoded

/-- A route registered behind `verifyAdmin`: the handler runs only on `next()`. -/
def guarded (sys : Sys) (ctx : Ctx) (authorization : Option String) (db : Db)
    (handler : Claims → Outcome × Db) : Outcome × Db :=
  match verifyAdmin sys ctx.now authorization with
  | .deny status message => (.responded status (.error message), db)
  | .next user => handler user

/-! ## Handlers -/

/-- Lines 44-58, `POST /admin/login`. The handler has no `try`. -/
def login (sys : Sys) (ctx : Ctx) (db : Db) (username password : String) : Outcome × Db :=
  match driverCall (ctx.dbFault 0) (findOne db.admins username) with
  | .error e => (.uncaught e, db)
  | .ok none => (.responded 404 (.error "Admin not found"), db)
  | .ok (some admin) =>
    match sys.lib.bcryptCompare password admin.password with
    | .error e => (.uncaught e, db)
    | .ok false => (.responded 401 (.error "Invalid password"), db)
    | .ok true =>
      match sys.lib.jwtSign admin.username "admin" (JWT_SECRET sys) oneHour ctx.now with
      | .error e => (.uncaught e, db)
      | .ok token => (.responded 200 (.token token), db)

/-- Lines 61-75, `POST /admin/create`. -/
def createAdmin (sys : Sys) (ctx : Ctx) (db : Db) (username password : String)
    (role : JsVal) : Outcome × Db :=
  match driverCall (ctx.dbFault 0) (findOne db.admins username) with
  | .error _ => (.responded 500 (.error "Failed to create admin"), db)
  | .ok (some _) => (.responded 400 (.error "Admin already exists"), db)
  | .ok none =>
    match sys.lib.bcryptHash password 10 ctx.salt with
    | .error _ => (.responded 500 (.error "Failed to create admin"), db)
    | .ok hashedPassword =>
      let newAdmin : AdminDoc :=
        { id := ctx.freshId, username := username, password := hashedPassword, role := role }
      match driverCall (ctx.dbFault 1) () with
      | .error _ => (.responded 500 (.error "Failed to create admin"), db)
      | .ok _ =>
        (.responded 200 (.insertResult ctx.freshId),
          { db with admins := db.admins ++ [newAdmin] })

/-- Lines 78-85, `GET /admin/all`. -/
def allAdmins (ctx : Ctx) (db : Db) : Outcome × Db :=
  match driverCall (ctx.dbFault 0) db.admins with
  | .error _ => (.responded 500 (.error "Failed to retrieve admins"), db)
  | .ok admins => (.responded 200 (.admins admins), db)

/-- Lines 88-96, `DELETE /admin/delete/:id`. -/
def deleteAdmin (sys : Sys) (ctx : Ctx) (db : Db) (id : String) : Outcome × Db :=
  match newObjectId sys.reads12 id with
  | .error _ => (.responded 500 (.error "Failed to delete admin"), db)
  | .ok oid =>
    match driverCall (ctx.dbFault 0) () with
    | .error _ => (.responded 500 (.error "Failed to delete admin"), db)
    | .ok _ =>
      (.responded 200 (.deleteResult (if db.admins.any (fun a => decide (a.id = oid)) then 1 else 0)),
        { db with admins := deleteAdminById oid db.admins })

/-- Lines 99-111, `PUT /admin/update-password`. -/
def updatePassword (sys : Sys) (ctx : Ctx) (db : Db) (username newPassword : String) :
    Outcome × Db :=
  match sys.lib.bcryptHash newPassword 10 ctx.salt with
  | .error _ => (.responded 500 (.error "Failed to update password"), db)
  | .ok hashedPassword =>
    match driverCall (ctx.dbFault 0) () with
    | .error _ => (.responded 500 (.error "Failed to update password"), db)
    | .ok _ =>
      (.responded 200 (.message "Password updated successfully"),
        { db with admins := setPassword username hashedPassword db.admins })

/-- Lines 114-130, `POST /admin/forgot-password`. -/
def forgotPassword (sys : Sys) (ctx : Ctx) (db : Db) (username newPassword : String) :
    Outcome × Db :=
  match driverCall (ctx.dbFault 0) (findOne db.admins username) with
  | .error _ => (.responded 500 (.error "Failed to reset password"), db)
  | .ok none => (.responded 404 (.error "Admin not found"), db)
  | .ok (some _) =>
    match sys.lib.bcryptHash newPassword 10 ctx.salt with
    | .error _ => (.responded 500 (.error "Failed to reset password"), db)
    | .ok hashedPassword =>
      match driverCall (ctx.dbFault 1) () with
      | .error _ => (.responded 500 (.error "Failed to reset password"), db)
      | .ok _ =>
        (.responded 200 (.message "Password reset successfully"),
          { db with admins := setPassword username hashedPassword db.admins })

/-- Lines 137 and 148-154: the record `newQuestion` around a given `options` array. -/
def questionRecord (body : Body) (options : List JsVal) : List (String × Field) :=
  [("question", .val (bodyGet body "question")),
    ("options", .list options),
    ("answer", .val (bodyGet body "correctOption")),
    ("topics", .val (bodyGet body "topic")),
    ("image", .val (bodyGet body "imageUrl"))]

/-- Lines 137-154: the record handed to `insertOne`, once the options are built. -/
def newQuestion (body : Body) : Except Failure (List (String × Field)) :=
  match buildOptions body with
  | .error e => .error e
  | .ok options => .ok (questionRecord body options)

/-- Lines 133-162, `POST /questions/add-question`. -/
def addQuestion (ctx : Ctx) (db : Db) (body : Body) : Outcome × Db :=
  match newQuestion body with
  | .error _ => (.responded 500 (.error "Failed to add question"), db)
  | .ok fields =>
    match driverCall (ctx.dbFault 0) () with
    | .error _ => (.responded 500 (.error "Failed to add question"), db)
    | .ok _ =>
      (.responded 200 (.insertResult ctx.freshId),
        { db with questions := db.questions ++ [{ id := ctx.freshId, fields := fields }] })

/-- Lines 165-178, `PUT /questions/update-question/:id`. The three values are
written as given. -/
def updateQuestion (sys : Sys) (ctx : Ctx) (db : Db) (id : String)
    (text options correctOption : JsVal) : Outcome × Db :=
  match newObjectId sys.reads12 id with
  | .error _ => (.responded 500 (.error "Failed to update question"), db)
  | .ok oid =>
    match driverCall (ctx.dbFault 0) () with
    | .error _ => (.responded 500 (.error "Failed to update question"), db)
    | .ok _ =>
      (.responded 200 (.updateResult (if db.questions.any (fun q => decide (q.id = oid)) then 1 else 0)),
        { db with questions := setQuestionFields oid text options correctOption db.questions })

/-- Lines 181-189, `DELETE /questions/delete-question/:id`. -/
def deleteQuestion (sys : Sys) (ctx : Ctx) (db : Db) (id : String) : Outcome × Db :=
  match newObjectId sys.reads12 id with
  | .error _ => (.responded 500 (.error "Failed to delete question"), db)
  | .ok oid =>
    match driverCall (ctx.dbFault 0) () with
    | .error _ => (.responded 500 (.error "Failed to delete question"), db)
    | .ok _ =>
      (.responded 200 (.deleteResult (if db.questions.any (fun q => decide (q.id = oid)) then 1 else 0)),
        { db with questions := deleteQuestionById oid db.questions })

/-- Lines 192-199, `GET /questions/all-questions`. -/
def allQuestions (ctx : Ctx) (db : Db) : Outcome × Db :=
  match driverCall (ctx.dbFault 0) db.questions with
  | .error _ => (.responded 500 (.error "Failed to retrieve questions"), db)
  | .ok questions => (.responded 200 (.questions questions), db)

/-! ## Routes -/

/-- A request to one of the ten routes, with the fields of `req.body` and
`req.params` its handler reads. `username`, `password` and `newPassword` are
JSON strings, as the data model has them; `id` is the path segment bound to
`:id`, which is never empty on a request that reaches the route. -/
inductive Call where
  | login (username password : String)
  | createAdmin (username password : String) (role : JsVal)
  | allAdmins
  | deleteAdmin (id : String)
  | updatePassword (username newPassword : String)
  | forgotPassword (username newPassword : String)
  | addQuestion (body : Body)
  | updateQuestion (id : String) (text options correctOption : JsVal)
  | deleteQuestion (id : String)
  | allQuestions
  deriving DecidableEq, Repr

/-- The routes registered with `verifyAdmin` in front of the handler. -/
def Call.gated : Call → Bool
  | .login _ _ => false
  | .forgotPassword _ _ => false
  | .allQuestions => false
  | _ => true

/-- The routing table of lines 44-199: the request `call` with the given
`Authorization` header, served on the database `db`. -/
def serve (sys : Sys) (ctx : Ctx) (authorization : Option String) (call : Call) (db : Db) :
    Outcome × Db :=
  match call with
  | .login username password => login sys ctx db username password
  | .createAdmin username password role =>
    guarded sys ctx authorization db (fun _ => createAdmin sys ctx db username password role)
  | .allAdmins => guarded sys ctx authorization db (fun _ => allAdmins ctx db)
  | .deleteAdmin id => guarded sys ctx authorization db (fun _ => deleteAdmin sys ctx db id)
  | .updatePassword username newPassword =>
    guarded sys ctx authorization db (fun _ => updatePassword sys ctx db username newPassword)
  | .forgotPassword username newPassword => forgotPassword sys ctx db username newPassword
  | .addQuestion body => guarded sys ctx authorization db (fun _ => addQuestion ctx db body)
  | .updateQuestion id text options correctOption =>
    guarded sys ctx authorization db
      (fun _ => updateQuestion sys ctx db id text options correctOption)
  | .deleteQuestion id => guarded sys ctx authorization db (fun _ => deleteQuestion sys ctx db id)
  | .allQuestions => allQuestions ctx db

/-! ## A concrete instance -/

/-- A small instance of the library interface: a token is `<username>.<role>`,
valid for an hour from clock 0; a hash is the data behind a `$2b$` tag. -/
def sampleLib : Lib where
  jwtSign := fun username role _ _ _ =>
    if username = "" then .error "payload is required" else .ok (username ++ "." ++ role)
  jwtVerify := fun token _ now =>
    if token = "alice.admin" then
      if now < 3600 then
        .ok { username := .str "alice", role := .str "admin", iat := some 0, exp := some 3600 }
      else .error "jwt expired"
    else if token = "bob.editor" then
      .ok { username := .str "bob", role := .str "editor", iat := some 0, exp := none }
    else .error "invalid signature"
  bcryptHash := fun data _ _ => .ok ("$2b$" ++ data)
  bcryptCompare := fun data hash => .ok (decide (hash = "$2b$" ++ data))

/-- A process with `sampleLib` and no `JWT_SECRET` set. -/
def sampleSys : Sys := { lib := sampleLib, envJwtSecret := none }

/-- A request context at clock `now` with no failing driver call. -/
def sampleCtx (now : Nat) : Ctx :=
  { now := now, salt := "s", freshId := 7, dbFault := fun _ => none }

/-- A database with one admin, `alice`, whose password is `pw`. -/
def sampleDb : Db :=
  { admins := [{ id := 1, username := "alice", password := "$2b$pw", role := .str "admin" }],
    questions := [] }

/-- Three option fields arriving as `options[2]`, `options[0]`, `options[1]`. -/
def bodyCAB : Body :=
  [("question", .str "Which sign?"), ("options[2]", .str "C"), ("options[0]", .str "A"),
    ("options[1]", .str "B"), ("correctOption", .str "A")]

/-- The index written in each option key of `bodyCAB`. -/
def indexCAB (key : String) : Nat :=
  if key = "options[2]" then 2 else if key = "options[0]" then 0 else 1

/-- Two option fields whose indices are `2^53 + 1` and `2^53`, in that arrival order. -/
def bodyHuge : Body :=
  [("options[9007199254740993]", .str "B"), ("options[9007199254740992]", .str "A")]

/-- The index written in each option key of `bodyHuge`. -/
def indexHuge (key : String) : Nat :=
  if key = "options[9007199254740993]" then 9007199254740993 else 9007199254740992

/-- The same process on a driver release that reads 12-character ids. -/
def sampleSys12 : Sys := { lib := sampleLib, envJwtSecret := none, reads12 := true }

/-- A database with the admin `alice` and one question, of ids 1 and 2. -/
def quizDb : Db :=
  { admins := [{ id := 1, username := "alice", password := "$2b$pw", role := .str "admin" }],
    questions := [{ id := 2, fields := [("question", .val (.str "Which sign?"))] }] }

/-- The two collections a delete route works on. -/
inductive Collection where
  | admins
  | questions
  deriving DecidableEq, Repr

/-- The ids of the records of a collection. -/
def Collection.ids : Collection → Db → List ObjectId
  | .admins, db => db.admins.map (fun a => a.id)
  | .questions, db => db.questions.map (fun q => q.id)

/-- The delete request on a collection: DeleteAdmin(id) or DeleteQuestion(id). -/
def Collection.deleteCall : Collection → String → Call
  | .admins, id => .deleteAdmin id
  | .questions, id => .deleteQuestion id

/-- The message of the 500 response of the delete route of a collection. -/
def Collection.deleteFailure : Collection → String
  | .admins => "Failed to delete admin"
  | .questions => "Failed to delete question"

/-- A request context in which every driver call rejects: the database cannot
be reached. -/
def unreachableCtx : Ctx :=
  { now := 5, salt := "s", freshId := 7,
    dbFault := fun _ => some "MongoServerSelectionError: connect ECONNREFUSED" }

/-! ## Specification vocabulary for the option fields -/

/-- The key is `options[i]`: the text `options[`, a non-empty decimal numeral
denoting `i`, and `]`. -/
def IndexedOption (key : String) (i : Nat) : Prop :=
  ∃ ds : List Char, ds ≠ [] ∧ (∀ c ∈ ds, isDigit c = true) ∧
    key = String.mk ("options[".toList ++ ds ++ [']']) ∧ decimalValue ds = i

/-- The option fields of a body, in arrival order. -/
def optionFields (body : Body) : Body :=
  body.filter (fun kv => startsWithOptions kv.1)

/-- The usernames of a collection, in natural order. -/
def usernames (admins : List AdminDoc) : List String := admins.map (fun a => a.username)

/-! ## Lemmas: sorting -/

theorem takeWhile_digits_append (ds rest : List Char) (hds : ∀ c ∈ ds, isDigit c = true)
    (hrest : ∀ c, rest.head? = some c → isDigit c = false) :
    (ds ++ rest).takeWhile isDigit = ds := by
  induction ds with
  | nil =>
    cases rest with
    | nil => rfl
    | cons c cs => simp [List.takeWhile, hrest c rfl]
  | cons d ds ih =>
    have hd : isDigit d = true := hds d (List.mem_cons_self _ _)
    have ih1 := ih (fun c hc => hds c (List.mem_cons_of_mem _ hc))
    simp [List.takeWhile, hd, ih1]

theorem matchDigits_indexed {key : String} {i : Nat} (h : IndexedOption key i) :
    ∃ ds, matchDigits key = some ds ∧ decimalValue ds = i := by
  obtain ⟨ds, hne, hdig, hkey, hval⟩ := h
  refine ⟨ds, ?_, hval⟩
  subst hkey
  cases ds with
  | nil => exact absurd rfl hne
  | cons d ds =>
    have hd : isDigit d = true := hdig d (List.mem_cons_self _ _)
    have htw : ((d :: ds) ++ [']']).takeWhile isDigit = d :: ds :=
      takeWhile_digits_append (d :: ds) [']'] hdig (by
        intro c hc
        simp at hc
        subst hc
        decide)
    have hdrop : (("options[".toList ++ (d :: ds) ++ [']']).dropWhile (fun c => !isDigit c))
        = (d :: ds) ++ [']'] := by
      have e : "options[".toList = ['o', 'p', 't', 'i', 'o', 'n', 's', '['] := rfl
      rw [e]
      have h1 : isDigit 'o' = false := by decide
      have h2 : isDigit 'p' = false := by decide
      have h3 : isDigit 't' = false := by decide
      have h4 : isDigit 'i' = false := by decide
      have h5 : isDigit 'n' = false := by decide
      have h6 : isDigit 's' = false := by decide
      have h7 : isDigit '[' = false := by decide
      simp [List.dropWhile, h1, h2, h3, h4, h5, h6, h7, hd]
    have hl : (String.mk ("options[".toList ++ (d :: ds) ++ [']'])).toList
        = "options[".toList ++ (d :: ds) ++ [']'] := rfl
    unfold matchDigits
    rw [hl, hdrop, htw]

theorem matchDigits_none_of_no_digit {key : String}
    (h : ∀ c ∈ key.toList, isDigit c = false) : matchDigits key = none := by
  unfold matchDigits
  have : key.toList.dropWhile (fun c => !isDigit c) = [] := by
    rw [List.dropWhile_eq_nil_iff]
    intro c hc
    simp [h c hc]
  rw [this]
  rfl

theorem compareKeys_ok {a b : String} {c : Int} (h : compareKeys a b = .ok c) :
    matchDigits a ≠ none ∧ matchDigits b ≠ none := by
  unfold compareKeys at h
  cases ha : matchDigits a with
  | none => simp [ha] at h
  | some da =>
    cases hb : matchDigits b with
    | none => simp [ha, hb] at h
    | some db => simp

theorem toNumber_exact {n : Nat} (h : n < 2 ^ 53) : toNumber n = .fin n := by
  unfold toNumber
  rw [if_pos h]

theorem compareKeys_indexed {a b : String} {i j : Nat} (ha : IndexedOption a i)
    (hb : IndexedOption b j) (hi : i < 2 ^ 53) (hj : j < 2 ^ 53) :
    compareKeys a b = .ok ((i : Int) - (j : Int)) := by
  obtain ⟨da, hma, hva⟩ := matchDigits_indexed ha
  obtain ⟨db, hmb, hvb⟩ := matchDigits_indexed hb
  unfold compareKeys
  simp only [hma, hmb, parseInt, hva, hvb, toNumber_exact hi, toNumber_exact hj, JsNum.sub]

theorem insertSorted_eq_orderedInsert {α : Type} (cmp : α → α → Except Failure Int)
    (r : α → α → Prop) [DecidableRel r] (x : α) (ys : List α)
    (h : ∀ y ∈ ys, ∃ c, cmp x y = .ok c ∧ (c ≤ 0 ↔ r x y)) :
    insertSorted cmp x ys = .ok (ys.orderedInsert r x) := by
  induction ys with
  | nil => rfl
  | cons y ys ih =>
    obtain ⟨c, hc, hr⟩ := h y (List.mem_cons_self _ _)
    have ih1 := ih (fun z hz => h z (List.mem_cons_of_mem _ hz))
    by_cases hle : c ≤ 0
    · have : r x y := hr.mp hle
      simp [insertSorted, hc, hle, List.orderedInsert, this]
    · have : ¬ r x y := fun hxy => hle (hr.mpr hxy)
      simp [insertSorted, hc, hle, List.orderedInsert, this, ih1]

theorem sortWith_eq_insertionSort {α : Type} (cmp : α → α → Except Failure Int)
    (r : α → α → Prop) [DecidableRel r] (l : List α)
    (h : ∀ x ∈ l, ∀ y ∈ l, ∃ c, cmp x y = .ok c ∧ (c ≤ 0 ↔ r x y)) :
    sortWith cmp l = .ok (l.insertionSort r) := by
  induction l with
  | nil => rfl
  | cons x xs ih =>
    have ih1 := ih (fun a ha b hb =>
      h a (List.mem_cons_of_mem _ ha) b (List.mem_cons_of_mem _ hb))
    have hins := insertSorted_eq_orderedInsert cmp r x (xs.insertionSort r) (fun y hy =>
      h x (List.mem_cons_self _ _) y
        (List.mem_cons_of_mem _ ((List.perm_insertionSort r xs).subset hy)))
    simp [sortWith, ih1, hins, List.insertionSort]

theorem insertSorted_perm {α : Type} (cmp : α → α → Except Failure Int) (x : α) :
    ∀ (ys r : List α), insertSorted cmp x ys = .ok r → r.Perm (x :: ys) := by
  intro ys
  induction ys with
  | nil =>
    intro r h
    simp [insertSorted] at h
    subst h
    exact List.Perm.refl _
  | cons y ys ih =>
    intro r h
    unfold insertSorted at h
    cases hc : cmp x y with
    | error e => simp [hc] at h
    | ok c =>
      simp only [hc] at h
      by_cases hle : c ≤ 0
      · simp [hle] at h
        subst h
        exact List.Perm.refl _
      · simp only [hle, if_false] at h
        cases hrec : insertSorted cmp x ys with
        | error e => simp [hrec] at h
        | ok r1 =>
          simp [hrec] at h
          subst h
          exact ((ih r1 hrec).cons y).trans (List.Perm.swap x y ys)

theorem sortWith_perm {α : Type} (cmp : α → α → Except Failure Int) :
    ∀ (l s : List α), sortWith cmp l = .ok s → s.Perm l := by
  intro l
  induction l with
  | nil =>
    intro s h
    simp [sortWith] at h
    subst h
    exact List.Perm.refl _
  | cons x xs ih =>
    intro s h
    unfold sortWith at h
    cases hrec : sortWith cmp xs with
    | error e => simp [hrec] at h
    | ok s1 =>
      simp only [hrec] at h
      exact (insertSorted_perm cmp x s1 s h).trans ((ih s1 hrec).cons x)

theorem insertSorted_head_compared {α : Type} (cmp : α → α → Except Failure Int) (x y : α)
    (ys r : List α) (h : insertSorted cmp x (y :: ys) = .ok r) : ∃ c, cmp x y = .ok c := by
  unfold insertSorted at h
  cases hc : cmp x y with
  | error e => simp [hc] at h
  | ok c => exact ⟨c, rfl⟩

theorem sortWith_all_compared {α : Type} (cmp : α → α → Except Failure Int) (P : α → Prop)
    (hP : ∀ a b c, cmp a b = .ok c → P a ∧ P b) :
    ∀ (l s : List α), sortWith cmp l = .ok s → 2 ≤ l.length → ∀ x ∈ l, P x := by
  intro l
  induction l with
  | nil => intro s _ hlen; simp at hlen
  | cons x xs ih =>
    intro s h hlen
    unfold sortWith at h
    cases hrec : sortWith cmp xs with
    | error e => simp [hrec] at h
    | ok s1 =>
      simp only [hrec] at h
      have hperm := sortWith_perm cmp xs s1 hrec
      cases s1 with
      | nil =>
        have : xs = [] := (List.Perm.nil_eq hperm).symm
        subst this
        simp at hlen
      | cons z zs =>
        obtain ⟨c, hc⟩ := insertSorted_head_compared cmp x z zs s h
        have hxz := hP x z c hc
        intro w hw
        rcases List.mem_cons.mp hw with hwx | hwxs
        · subst hwx
          exact hxz.1
        · by_cases hlen2 : 2 ≤ xs.length
          · exact ih (z :: zs) hrec hlen2 w hwxs
          · cases xs with
            | nil => simp at hwxs
            | cons y ys =>
              have hys : ys = [] := by
                cases ys with
                | nil => rfl
                | cons _ _ => simp at hlen2
              subst hys
              have hz : z ∈ [y] := hperm.subset (List.mem_cons_self _ _)
              simp at hz hwxs
              subst hz
              subst hwxs
              exact hxz.2

/-! ## Lemmas: reading the option fields back -/

theorem bodyGet_of_mem (p : String → Bool) :
    ∀ (body : Body), ((body.map Prod.fst).filter p).Nodup →
      ∀ kv ∈ body, p kv.1 = true → bodyGet body kv.1 = kv.2 := by
  intro body
  induction body with
  | nil => intro _ kv hkv; simp at hkv
  | cons e rest ih =>
    intro hnd kv hkv hp
    obtain ⟨k0, v0⟩ := e
    rcases List.mem_cons.mp hkv with heq | hmem
    · subst heq
      simp [bodyGet]
    · by_cases hk : k0 = kv.1
      · exfalso
        have hp0 : p k0 = true := by rw [hk]; exact hp
        have hin : kv.1 ∈ (rest.map Prod.fst).filter p :=
          List.mem_filter.mpr ⟨List.mem_map_of_mem _ hmem, hp⟩
        simp only [List.map_cons, List.filter_cons, hp0, if_true, List.nodup_cons] at hnd
        exact hnd.1 (hk ▸ hin)
      · have hnd1 : ((rest.map Prod.fst).filter p).Nodup := by
          simp only [List.map_cons, List.filter_cons] at hnd
          by_cases hp0 : p k0 = true
          · simp only [hp0, if_true, List.nodup_cons] at hnd
            exact hnd.2
          · simpa [hp0] using hnd
        simp only [bodyGet, hk, if_false]
        exact ih hnd1 kv hmem hp

theorem map_keys_eq_filter (p : String → Bool) (g : String → JsVal) :
    ∀ (l : Body), (∀ kv ∈ l, p kv.1 = true → g kv.1 = kv.2) →
      ((l.map Prod.fst).filter p).map (fun k => (k, g k)) = l.filter (fun kv => p kv.1) := by
  intro l
  induction l with
  | nil => intro _; rfl
  | cons e rest ih =>
    intro h
    have ih1 := ih (fun kv hkv => h kv (List.mem_cons_of_mem _ hkv))
    by_cases hp : p e.1 = true
    · have he := h e (List.mem_cons_self _ _) hp
      simp only [List.map_cons, List.filter_cons, hp, if_true, ih1, he]
    · simpa [List.filter_cons, hp] using ih1

/-! ## Option order of AddQuestion -/

/-- C1 (as amended): for every request body whose option fields are keys
`options[i]` with pairwise distinct decimal indices `i`, each below `2^53`, and
for every arrival order of those fields, the `options` array of the record
handed to `insertOne` is the list of those fields' values in strictly ascending
numeric order of `i`. -/
theorem addQuestion_options_in_index_order (body : Body) (index : String → Nat)
    (hform : ∀ k ∈ optionKeys body, IndexedOption k (index k))
    (hdistinct : ((optionKeys body).map index).Nodup)
    (hexact : ∀ k ∈ optionKeys body, index k < 2 ^ 53) :
    ∃ sorted : Body, sorted.Perm (optionFields body) ∧
      (sorted.map (fun kv => index kv.1)).Sorted (· < ·) ∧
      newQuestion body = .ok (questionRecord body (sorted.map Prod.snd)) := by
  let r : String → String → Prop := fun a b => index a ≤ index b
  haveI : DecidableRel r := fun a b => Nat.decLe (index a) (index b)
  haveI : IsTotal String r := ⟨fun a b => Nat.le_total (index a) (index b)⟩
  haveI : IsTrans String r := ⟨fun a b c hab hbc => Nat.le_trans hab hbc⟩
  have hcmp : ∀ x ∈ optionKeys body, ∀ y ∈ optionKeys body,
      ∃ c, compareKeys x y = .ok c ∧ (c ≤ 0 ↔ r x y) := by
    intro x hx y hy
    refine ⟨(index x : Int) - (index y : Int),
      compareKeys_indexed (hform x hx) (hform y hy) (hexact x hx) (hexact y hy), ?_⟩
    show (index x : Int) - (index y : Int) ≤ 0 ↔ index x ≤ index y
    omega
  have hsort := sortWith_eq_insertionSort compareKeys r (optionKeys body) hcmp
  have hperm := List.perm_insertionSort r (optionKeys body)
  have hkeys : (optionKeys body).Nodup := List.Nodup.of_map index hdistinct
  have hback : (optionKeys body).map (fun k => (k, bodyGet body k)) = optionFields body :=
    map_keys_eq_filter startsWithOptions (bodyGet body) body
      (bodyGet_of_mem startsWithOptions body hkeys)
  refine ⟨((optionKeys body).insertionSort r).map (fun k => (k, bodyGet body k)), ?_, ?_, ?_⟩
  · rw [← hback]
    exact hperm.map _
  · have hle : (((optionKeys body).insertionSort r).map index).Sorted (· ≤ ·) := by
      have := List.sorted_insertionSort r (optionKeys body)
      exact List.pairwise_map.mpr this
    have hnd : (((optionKeys body).insertionSort r).map index).Nodup :=
      ((hperm.map index).nodup_iff).mpr hdistinct
    have hlt := List.Sorted.lt_of_le hle hnd
    simpa [List.map_map, Function.comp] using hlt
  · simp [newQuestion, buildOptions, hsort, questionRecord, List.map_map, Function.comp]

/-- C1, an instance: `options[2]="C", options[0]="A", options[1]="B"`. -/
theorem addQuestion_options_in_index_order_witness :
    ∃ sorted : Body, sorted.Perm (optionFields bodyCAB) ∧
      (sorted.map (fun kv => indexCAB kv.1)).Sorted (· < ·) ∧
      newQuestion bodyCAB = .ok (questionRecord bodyCAB (sorted.map Prod.snd)) :=
  addQuestion_options_in_index_order bodyCAB indexCAB
    (by
      have hk : optionKeys bodyCAB = ["options[2]", "options[0]", "options[1]"] := by decide
      intro k hm
      rw [hk] at hm
      simp only [List.mem_cons, List.mem_singleton, List.not_mem_nil, or_false] at hm
      rcases hm with h | h | h
      · subst h; exact ⟨['2'], by decide, by decide, by decide, by decide⟩
      · subst h; exact ⟨['0'], by decide, by decide, by decide, by decide⟩
      · subst h; exact ⟨['1'], by decide, by decide, by decide, by decide⟩)
    (by decide)
    (by decide)

/-- The stored order for `bodyCAB` is `["A","B","C"]`. -/
theorem addQuestion_options_CAB :
    newQuestion bodyCAB = .ok (questionRecord bodyCAB [.str "A", .str "B", .str "C"]) := by
  decide

set_option exponentiation.threshold 1100 in
/-- C1 as stated fails: the keys `options[9007199254740993]` and
`options[9007199254740992]` have distinct indices, both parse to the Number
`9007199254740992`, the comparator answers 0, and the values stay in arrival
order `["B","A"]` although the index of `"A"` is the smaller one. -/
theorem addQuestion_options_order_counterexample :
    (∀ k ∈ optionKeys bodyHuge, IndexedOption k (indexHuge k)) ∧
    ((optionKeys bodyHuge).map indexHuge).Nodup ∧
    indexHuge "options[9007199254740992]" < indexHuge "options[9007199254740993]" ∧
    newQuestion bodyHuge = .ok (questionRecord bodyHuge [.str "B", .str "A"]) ∧
    ¬ ∃ sorted : Body, sorted.Perm (optionFields bodyHuge) ∧
      (sorted.map (fun kv => indexHuge kv.1)).Sorted (· < ·) ∧
      newQuestion bodyHuge = .ok (questionRecord bodyHuge (sorted.map Prod.snd)) := by
  have hnew : newQuestion bodyHuge = .ok (questionRecord bodyHuge [.str "B", .str "A"]) := by
    decide
  refine ⟨?_, by decide, by decide, hnew, ?_⟩
  · have hk : optionKeys bodyHuge
        = ["options[9007199254740993]", "options[9007199254740992]"] := by decide
    intro k hm
    rw [hk] at hm
    simp only [List.mem_cons, List.mem_singleton, List.not_mem_nil, or_false] at hm
    rcases hm with h | h
    · subst h
      exact ⟨"9007199254740993".toList, by decide, by decide, by decide, by decide⟩
    · subst h
      exact ⟨"9007199254740992".toList, by decide, by decide, by decide, by decide⟩
  · rintro ⟨sorted, hperm, hsorted, heq⟩
    rw [hnew] at heq
    have hvals : sorted.map Prod.snd = [.str "B", .str "A"] := by
      have := Except.ok.inj heq
      simp [questionRecord] at this
      exact this.symm
    have hlen : sorted.length = 2 := by
      have := congrArg List.length hvals
      simpa using this
    match sorted, hlen with
    | [a, b], _ =>
      simp only [List.map_cons, List.map_nil, List.cons.injEq, and_true] at hvals
      have ha : a ∈ optionFields bodyHuge := hperm.subset (List.mem_cons_self _ _)
      have hb : b ∈ optionFields bodyHuge :=
        hperm.subset (List.mem_cons_of_mem _ (List.mem_cons_self _ _))
      have hf : optionFields bodyHuge = bodyHuge := by decide
      rw [hf] at ha hb
      simp only [bodyHuge, List.mem_cons, List.mem_singleton, List.not_mem_nil, or_false]
        at ha hb
      have hlt : indexHuge a.1 < indexHuge b.1 := by
        simpa [List.Sorted] using hsorted
      rcases ha with ha | ha <;> rcases hb with hb | hb <;> subst ha <;> subst hb
      · exact absurd hlt (by decide)
      · exact absurd hlt (by decide)
      · exact absurd hvals.1 (by decide)
      · exact absurd hlt (by decide)

/-! ## AddQuestion with an option key that carries no index -/

/-- C10: for every authorised request whose body has at least two keys starting
with `options[`, one of them without any decimal digit, the comparator's index
extraction throws inside the sort, the handler answers 500 with
`Failed to add question`, and nothing is inserted. -/
theorem addQuestion_unindexed_key_fails (sys : Sys) (ctx : Ctx)
    (authorization : Option String) (user : Claims) (db : Db) (body : Body)
    (hauth : verifyAdmin sys ctx.now authorization = .next user)
    (htwo : 2 ≤ (optionKeys body).length)
    (hbad : ∃ k ∈ optionKeys body, ∀ c ∈ k.toList, isDigit c = false) :
    (∃ e, sortWith compareKeys (optionKeys body) = .error e) ∧
    serve sys ctx authorization (.addQuestion body) db
      = (.responded 500 (.error "Failed to add question"), db) := by
  obtain ⟨k, hk, hno⟩ := hbad
  have hthrow : ∃ e, sortWith compareKeys (optionKeys body) = .error e := by
    cases hs : sortWith compareKeys (optionKeys body) with
    | error e => exact ⟨e, rfl⟩
    | ok sorted =>
      exfalso
      have hall := sortWith_all_compared compareKeys (fun key => matchDigits key ≠ none)
        (fun a b c h => compareKeys_ok h) (optionKeys body) sorted hs htwo k hk
      exact hall (matchDigits_none_of_no_digit hno)
  refine ⟨hthrow, ?_⟩
  obtain ⟨e, he⟩ := hthrow
  simp [serve, guarded, hauth, addQuestion, newQuestion, buildOptions, he]

/-- C10, an instance: the keys `options[]` and `options[1]` under an admin token. -/
theorem addQuestion_unindexed_key_fails_witness :
    (∃ e, sortWith compareKeys
      (optionKeys [("options[]", .str "A"), ("options[1]", .str "B")]) = .error e) ∧
    serve sampleSys (sampleCtx 5) (some "Bearer alice.admin")
      (.addQuestion [("options[]", .str "A"), ("options[1]", .str "B")]) sampleDb
      = (.responded 500 (.error "Failed to add question"), sampleDb) :=
  addQuestion_unindexed_key_fails sampleSys (sampleCtx 5) (some "Bearer alice.admin")
    { username := .str "alice", role := .str "admin", iat := some 0, exp := some 3600 }
    sampleDb [("options[]", .str "A"), ("options[1]", .str "B")]
    (by decide) (by decide) ⟨"options[]", by decide, by decide⟩

/-! ## The gate -/

/-- C2: the decision table of `verifyAdmin`. Without an extractable token the
answer is 401; with a token that fails verification under the process secret it
is 401; with a verified token whose role is not `"admin"` it is 403; `next()`
runs, with the decoded claims attached, exactly when the token verifies and its
role is `"admin"`. Every request gets one of the three answers. -/
theorem verifyAdmin_decision_table (sys : Sys) (now : Nat) (authorization : Option String) :
    ((bearerToken authorization = none ∨ bearerToken authorization = some "") →
      verifyAdmin sys now authorization = .deny 401 "Unauthorized: No token provided") ∧
    (∀ token, bearerToken authorization = some token → token ≠ "" →
      (∀ e, sys.lib.jwtVerify token (JWT_SECRET sys) now = .error e →
        verifyAdmin sys now authorization = .deny 401 "Unauthorized: Invalid token") ∧
      (∀ claims, sys.lib.jwtVerify token (JWT_SECRET sys) now = .ok claims →
        claims.role ≠ .str "admin" →
        verifyAdmin sys now authorization = .deny 403 "Forbidden: Access denied")) ∧
    (∀ claims, verifyAdmin sys now authorization = .next claims ↔
      ∃ token, bearerToken authorization = some token ∧ token ≠ "" ∧
        sys.lib.jwtVerify token (JWT_SECRET sys) now = .ok claims ∧
        claims.role = .str "admin") ∧
    ((∃ message, verifyAdmin sys now authorization = .deny 401 message) ∨
      (∃ message, verifyAdmin sys now authorization = .deny 403 message) ∨
      (∃ claims, verifyAdmin sys now authorization = .next claims)) := by
  cases htok : bearerToken authorization with
  | none => simp [verifyAdmin, htok]
  | some token =>
    by_cases hempty : token = ""
    · simp [verifyAdmin, htok, hempty]
    · cases hver : sys.lib.jwtVerify token (JWT_SECRET sys) now with
      | error e => simp [verifyAdmin, htok, hempty, hver]
      | ok claims =>
        by_cases hrole : claims.role = .str "admin"
        · simp [verifyAdmin, htok, hempty, hver, hrole]
        · simp [verifyAdmin, htok, hempty, hver, hrole]

/-- C3: for each of the seven routes behind the gate, every database and every
request whose token does not verify or verifies with a role other than
`"admin"`, the gate answers 401 or 403, that answer is the response, and both
collections are as before: the handler is not run. -/
theorem denied_request_changes_nothing (sys : Sys) (ctx : Ctx)
    (authorization : Option String) (call : Call) (db : Db)
    (hgated : call.gated = true)
    (hdenied : ∀ token claims, bearerToken authorization = some token →
      sys.lib.jwtVerify token (JWT_SECRET sys) ctx.now = .ok claims →
      claims.role ≠ .str "admin") :
    ∃ status message, (status = 401 ∨ status = 403) ∧
      verifyAdmin sys ctx.now authorization = .deny status message ∧
      serve sys ctx authorization call db = (.responded status (.error message), db) := by
  have hgate : ∃ status message, (status = 401 ∨ status = 403) ∧
      verifyAdmin sys ctx.now authorization = .deny status message := by
    cases htok : bearerToken authorization with
    | none =>
      exact ⟨401, "Unauthorized: No token provided", Or.inl rfl, by simp [verifyAdmin, htok]⟩
    | some token =>
      by_cases hempty : token = ""
      · exact ⟨401, "Unauthorized: No token provided", Or.inl rfl,
          by simp [verifyAdmin, htok, hempty]⟩
      · cases hver : sys.lib.jwtVerify token (JWT_SECRET sys) ctx.now with
        | error e =>
          exact ⟨401, "Unauthorized: Invalid token", Or.inl rfl,
            by simp [verifyAdmin, htok, hempty, hver]⟩
        | ok claims =>
          have hrole := hdenied token claims htok hver
          exact ⟨403, "Forbidden: Access denied", Or.inr rfl,
            by simp [verifyAdmin, htok, hempty, hver, hrole]⟩
  obtain ⟨status, message, hst, hdeny⟩ := hgate
  refine ⟨status, message, hst, hdeny, ?_⟩
  cases call <;> simp [Call.gated] at hgated <;> simp [serve, guarded, hdeny]

/-- C3, an instance: an editor's token on `DELETE /admin/delete/:id`. -/
theorem denied_request_changes_nothing_witness :
    ∃ status message, (status = 401 ∨ status = 403) ∧
      verifyAdmin sampleSys (sampleCtx 5).now (some "Bearer bob.editor")
        = .deny status message ∧
      serve sampleSys (sampleCtx 5) (some "Bearer bob.editor")
        (.deleteAdmin "000000000000000000000001") sampleDb
        = (.responded status (.error message), sampleDb) :=
  denied_request_changes_nothing sampleSys (sampleCtx 5) (some "Bearer bob.editor")
    (.deleteAdmin "000000000000000000000001") sampleDb rfl
    (by
      intro token claims htok hver
      have ht : token = "bob.editor" := by
        have : bearerToken (some "Bearer bob.editor") = some "bob.editor" := by decide
        rw [this] at htok
        exact (Option.some.inj htok).symm
      subst ht
      have hv : sampleSys.lib.jwtVerify "bob.editor" (JWT_SECRET sampleSys) (sampleCtx 5).now
          = .ok { username := .str "bob", role := .str "editor", iat := some 0, exp := none } := by
        decide
      rw [hv] at hver
      have := Except.ok.inj hver
      subst this
      decide)

/-- The editor's token meets 403 and the admin `alice` is still there, while the
same request under an admin token deletes her. -/
theorem deleteAdmin_denied_and_allowed :
    serve sampleSys (sampleCtx 5) (some "Bearer bob.editor")
        (.deleteAdmin "000000000000000000000001") sampleDb
      = (.responded 403 (.error "Forbidden: Access denied"), sampleDb) ∧
    serve sampleSys (sampleCtx 5) (some "Bearer alice.admin")
        (.deleteAdmin "000000000000000000000001") sampleDb
      = (.responded 200 (.deleteResult 1), { admins := [], questions := [] }) := by
  decide

/-! ## Lemmas: the admins collection -/

theorem findOne_eq_none {admins : List AdminDoc} {username : String} :
    findOne admins username = none ↔ ∀ a ∈ admins, a.username ≠ username := by
  simp [findOne, List.find?_eq_none]

theorem findOne_some {admins : List AdminDoc} {username : String} {admin : AdminDoc}
    (h : findOne admins username = some admin) :
    admin ∈ admins ∧ admin.username = username := by
  unfold findOne at h
  refine ⟨List.mem_of_find?_eq_some h, ?_⟩
  have := List.find?_some h
  simpa using this

theorem findOne_split {username : String} {admin : AdminDoc} :
    ∀ {admins : List AdminDoc}, findOne admins username = some admin →
      ∃ before after, admins = before ++ admin :: after ∧
        ∀ a ∈ before, a.username ≠ username := by
  intro admins
  induction admins with
  | nil => intro h; simp [findOne] at h
  | cons a rest ih =>
    intro h
    by_cases ha : a.username = username
    · have : a = admin := by simpa [findOne, List.find?, ha] using h
      subst this
      exact ⟨[], rest, rfl, by simp⟩
    · have h1 : findOne rest username = some admin := by
        simpa [findOne, List.find?, ha] using h
      obtain ⟨before, after, heq, hbefore⟩ := ih h1
      refine ⟨a :: before, after, by simp [heq], ?_⟩
      intro b hb
      rcases List.mem_cons.mp hb with hb | hb
      · subst hb; exact ha
      · exact hbefore b hb

theorem setPassword_split (username hash : String) (admin : AdminDoc)
    (hadmin : admin.username = username) (after : List AdminDoc) :
    ∀ (before : List AdminDoc), (∀ a ∈ before, a.username ≠ username) →
      setPassword username hash (before ++ admin :: after)
        = before ++ { admin with password := hash } :: after := by
  intro before
  induction before with
  | nil => intro _; simp [setPassword, hadmin]
  | cons b rest ih =>
    intro h
    have hb : b.username ≠ username := h b (List.mem_cons_self _ _)
    have ih1 := ih (fun a ha => h a (List.mem_cons_of_mem _ ha))
    simp [setPassword, hb, ih1]

theorem findOne_after_split (username : String) (admin : AdminDoc)
    (hadmin : admin.username = username) (after : List AdminDoc) :
    ∀ (before : List AdminDoc), (∀ a ∈ before, a.username ≠ username) →
      findOne (before ++ admin :: after) username = some admin := by
  intro before
  induction before with
  | nil => intro _; simp [findOne, List.find?, hadmin]
  | cons b rest ih =>
    intro h
    have hb : b.username ≠ username := h b (List.mem_cons_self _ _)
    have ih1 := ih (fun a ha => h a (List.mem_cons_of_mem _ ha))
    simpa [findOne, List.find?, hb] using ih1

theorem eraseP_of_no_match {α : Type} (p : α → Bool) :
    ∀ (l : List α), (∀ a ∈ l, p a = false) → l.eraseP p = l := by
  intro l
  induction l with
  | nil => intro _; rfl
  | cons a rest ih =>
    intro h
    have ha := h a (List.mem_cons_self _ _)
    have ih1 := ih (fun b hb => h b (List.mem_cons_of_mem _ hb))
    simp [List.eraseP_cons, ha, ih1]

/-! ## Login -/

/-- C4: the outcome of Login when every call it makes returns. It answers 404
exactly when no admin has the username; 401 exactly when the record found does
not match the password; otherwise `{token}`, the token being `jwt.sign` of the
found record's username and role `"admin"` under the process secret with an
expiry of one hour. Neither collection changes. -/
theorem login_outcome (sys : Sys) (ctx : Ctx) (authorization : Option String) (db : Db)
    (username password : String)
    (hdb : ctx.dbFault 0 = none)
    (hcompare : ∀ admin, findOne db.admins username = some admin →
      ∃ b, sys.lib.bcryptCompare password admin.password = .ok b)
    (hsign : ∀ admin, findOne db.admins username = some admin →
      ∃ token, sys.lib.jwtSign admin.username "admin" (JWT_SECRET sys) oneHour ctx.now
        = .ok token) :
    ((serve sys ctx authorization (.login username password) db).1.status = some 404 ↔
      ∀ a ∈ db.admins, a.username ≠ username) ∧
    ((serve sys ctx authorization (.login username password) db).1.status = some 401 ↔
      ∃ admin, findOne db.admins username = some admin ∧
        sys.lib.bcryptCompare password admin.password = .ok false) ∧
    (¬ (∀ a ∈ db.admins, a.username ≠ username) →
      ¬ (∃ admin, findOne db.admins username = some admin ∧
        sys.lib.bcryptCompare password admin.password = .ok false) →
      ∃ admin token, findOne db.admins username = some admin ∧
        admin.username = username ∧
        sys.lib.jwtSign admin.username "admin" (JWT_SECRET sys) oneHour ctx.now = .ok token ∧
        (serve sys ctx authorization (.login username password) db).1
          = .responded 200 (.token token)) ∧
    (serve sys ctx authorization (.login username password) db).2 = db := by
  cases hfind : findOne db.admins username with
  | none =>
    have hnone := findOne_eq_none.mp hfind
    have hserve : serve sys ctx authorization (.login username password) db
        = (.responded 404 (.error "Admin not found"), db) := by
      simp [serve, login, hdb, driverCall, hfind]
    rw [hserve]
    refine ⟨⟨fun _ => hnone, fun _ => rfl⟩, ⟨fun h => ?_, fun h => ?_⟩, fun h => absurd hnone h,
      rfl⟩
    · simp [Outcome.status] at h
    · obtain ⟨admin, hadmin, _⟩ := h
      simp at hadmin
  | some admin =>
    have hmem := findOne_some hfind
    have hex : ¬ ∀ a ∈ db.admins, a.username ≠ username :=
      fun h => h admin hmem.1 hmem.2
    obtain ⟨b, hb⟩ := hcompare admin hfind
    obtain ⟨token, htoken⟩ := hsign admin hfind
    cases b with
    | false =>
      have hserve : serve sys ctx authorization (.login username password) db
          = (.responded 401 (.error "Invalid password"), db) := by
        simp [serve, login, hdb, driverCall, hfind, hb]
      rw [hserve]
      refine ⟨⟨fun h => ?_, fun h => absurd h hex⟩, ⟨fun _ => ⟨admin, rfl, hb⟩, fun _ => rfl⟩,
        fun _ h => absurd ⟨admin, rfl, hb⟩ h, rfl⟩
      simp [Outcome.status] at h
    | true =>
      have hserve : serve sys ctx authorization (.login username password) db
          = (.responded 200 (.token token), db) := by
        simp [serve, login, hdb, driverCall, hfind, hb, htoken]
      rw [hserve]
      refine ⟨⟨fun h => ?_, fun h => absurd h hex⟩, ⟨fun h => ?_, fun h => ?_⟩,
        fun _ _ => ⟨admin, token, rfl, hmem.2, htoken, rfl⟩, rfl⟩
      · simp [Outcome.status] at h
      · simp [Outcome.status] at h
      · obtain ⟨admin1, hadmin1, hfalse⟩ := h
        have : admin1 = admin := (Option.some.inj hadmin1).symm
        subst this
        rw [hb] at hfalse
        simp at hfalse

/-- C4, an instance: `alice` logging in with her password. -/
theorem login_outcome_witness :
    ((serve sampleSys (sampleCtx 0) none (.login "alice" "pw") sampleDb).1.status = some 404 ↔
      ∀ a ∈ sampleDb.admins, a.username ≠ "alice") ∧
    ((serve sampleSys (sampleCtx 0) none (.login "alice" "pw") sampleDb).1.status = some 401 ↔
      ∃ admin, findOne sampleDb.admins "alice" = some admin ∧
        sampleSys.lib.bcryptCompare "pw" admin.password = .ok false) ∧
    (¬ (∀ a ∈ sampleDb.admins, a.username ≠ "alice") →
      ¬ (∃ admin, findOne sampleDb.admins "alice" = some admin ∧
        sampleSys.lib.bcryptCompare "pw" admin.password = .ok false) →
      ∃ admin token, findOne sampleDb.admins "alice" = some admin ∧
        admin.username = "alice" ∧
        sampleSys.lib.jwtSign admin.username "admin" (JWT_SECRET sampleSys) oneHour
          (sampleCtx 0).now = .ok token ∧
        (serve sampleSys (sampleCtx 0) none (.login "alice" "pw") sampleDb).1
          = .responded 200 (.token token)) ∧
    (serve sampleSys (sampleCtx 0) none (.login "alice" "pw") sampleDb).2 = sampleDb :=
  login_outcome sampleSys (sampleCtx 0) none sampleDb "alice" "pw" rfl
    (fun admin _ => ⟨_, rfl⟩)
    (fun admin h => by
      have := (findOne_some h).2
      exact ⟨"alice.admin", by simp [sampleSys, sampleLib, this]⟩)

/-- The three answers of Login on `sampleDb`. -/
theorem login_three_answers :
    serve sampleSys (sampleCtx 0) none (.login "carol" "pw") sampleDb
      = (.responded 404 (.error "Admin not found"), sampleDb) ∧
    serve sampleSys (sampleCtx 0) none (.login "alice" "wrong") sampleDb
      = (.responded 401 (.error "Invalid password"), sampleDb) ∧
    serve sampleSys (sampleCtx 0) none (.login "alice" "pw") sampleDb
      = (.responded 200 (.token "alice.admin"), sampleDb) := by
  decide

/-! ## Login then the gate -/

theorem bearerToken_of_bearer (token : String) (hspace : ' ' ∉ token.toList) :
    bearerToken (some ("Bearer " ++ token)) = some token := by
  have hl : ("Bearer " ++ token).toList = "Bearer".toList ++ ' ' :: token.toList := by
    simp [String.toList, String.data_append]
  have h1 : ("Bearer".toList ++ ' ' :: token.toList).splitOnP (· == ' ')
      = "Bearer".toList :: token.toList.splitOnP (· == ' ') :=
    List.splitOnP_first (· == ' ') "Bearer".toList (by decide) ' ' (by decide) token.toList
  have h2 : token.toList.splitOnP (· == ' ') = [token.toList] :=
    List.splitOnP_eq_single (· == ' ') token.toList (by
      intro c hc heq
      have : c = ' ' := by simpa using heq
      exact hspace (this ▸ hc))
  simp only [bearerToken, splitSpaces, List.splitOn, hl, h1, h2]
  rfl

/-- C5: Login followed by the gate, with the clock in whole seconds as
`jsonwebtoken` reads it. Let `(u, p)` be valid credentials and `ctx.now` the
issuance time `t0`, and let the library behave on the token it issues as
documented: the token has no blank, `jwt.verify` returns the signed claims with
`iat = t0` and `exp = t0 + 3600` while the clock is below `exp`, and throws from
`exp` on. Then Login answers with that token, and presented as `Bearer <token>`
it passes the gate with claims `u` and `"admin"` at every `t` with
`t0 ≤ t < t0 + 3600` and meets 401 at every `t` after `t0 + 3600`. -/
theorem login_token_round_trip (sys : Sys) (ctx : Ctx) (db : Db) (u p token : String)
    (admin : AdminDoc)
    (hdb : ctx.dbFault 0 = none)
    (hfound : findOne db.admins u = some admin)
    (hvalid : sys.lib.bcryptCompare p admin.password = .ok true)
    (hsign : sys.lib.jwtSign u "admin" (JWT_SECRET sys) oneHour ctx.now = .ok token)
    (hshape : token ≠ "" ∧ ' ' ∉ token.toList)
    (hlive : ∀ t, t < ctx.now + oneHour →
      sys.lib.jwtVerify token (JWT_SECRET sys) t = .ok
        { username := .str u, role := .str "admin", iat := some ctx.now,
          exp := some (ctx.now + oneHour) })
    (hexpired : ∀ t, ctx.now + oneHour ≤ t →
      ∃ e, sys.lib.jwtVerify token (JWT_SECRET sys) t = .error e) :
    (serve sys ctx none (.login u p) db).1 = .responded 200 (.token token) ∧
    (∀ t, ctx.now ≤ t → t < ctx.now + 3600 →
      verifyAdmin sys t (some ("Bearer " ++ token)) = .next
        { username := .str u, role := .str "admin", iat := some ctx.now,
          exp := some (ctx.now + 3600) }) ∧
    (∀ t, ctx.now + 3600 < t →
      verifyAdmin sys t (some ("Bearer " ++ token))
        = .deny 401 "Unauthorized: Invalid token") := by
  have hname : admin.username = u := (findOne_some hfound).2
  have htok := bearerToken_of_bearer token hshape.2
  refine ⟨?_, ?_, ?_⟩
  · simp [serve, login, hdb, driverCall, hfound, hvalid, hname, hsign]
  · intro t _ hlt
    have hv := hlive t hlt
    simp [verifyAdmin, htok, hshape.1, hv, oneHour]
  · intro t hgt
    obtain ⟨e, he⟩ := hexpired t (Nat.le_of_lt hgt)
    simp [verifyAdmin, htok, hshape.1, he]

/-- C5, an instance: `alice` logs in at clock 0. -/
theorem login_token_round_trip_witness :
    (serve sampleSys (sampleCtx 0) none (.login "alice" "pw") sampleDb).1
      = .responded 200 (.token "alice.admin") ∧
    (∀ t, (sampleCtx 0).now ≤ t → t < (sampleCtx 0).now + 3600 →
      verifyAdmin sampleSys t (some ("Bearer " ++ "alice.admin")) = .next
        { username := .str "alice", role := .str "admin", iat := some (sampleCtx 0).now,
          exp := some ((sampleCtx 0).now + 3600) }) ∧
    (∀ t, (sampleCtx 0).now + 3600 < t →
      verifyAdmin sampleSys t (some ("Bearer " ++ "alice.admin"))
        = .deny 401 "Unauthorized: Invalid token") :=
  login_token_round_trip sampleSys (sampleCtx 0) sampleDb "alice" "pw" "alice.admin"
    { id := 1, username := "alice", password := "$2b$pw", role := .str "admin" }
    rfl (by decide) (by decide) (by decide) (by decide)
    (by
      intro t ht
      have ht1 : t < 3600 := by simpa [sampleCtx, oneHour] using ht
      simp [sampleSys, sampleLib, sampleCtx, oneHour, ht1])
    (by
      intro t ht
      have ht1 : ¬ t < 3600 := by
        have : 3600 ≤ t := by simpa [sampleCtx, oneHour] using ht
        omega
      exact ⟨"jwt expired", by simp [sampleSys, sampleLib, ht1]⟩)

/-- The token of `alice` at the gate: in at clock 3599, out at clock 3600. -/
theorem gate_at_the_hour :
    verifyAdmin sampleSys 3599 (some "Bearer alice.admin") = .next
      { username := .str "alice", role := .str "admin", iat := some 0, exp := some 3600 } ∧
    verifyAdmin sampleSys 3600 (some "Bearer alice.admin")
      = .deny 401 "Unauthorized: Invalid token" := by
  decide

/-! ## CreateAdmin -/

/-- C6: CreateAdmin keeps usernames pairwise distinct, whatever the request and
however its calls end; and two authorised CreateAdmin requests for a username
the collection does not have, with the first one's hashing and driver calls
returning, insert a record, then answer 400 `Admin already exists` and change
nothing, so that one record has the username. -/
theorem createAdmin_keeps_usernames_unique (sys : Sys) :
    (∀ (ctx : Ctx) (authorization : Option String) (db : Db) (username password : String)
        (role : JsVal), (usernames db.admins).Nodup →
      (usernames
        (serve sys ctx authorization (.createAdmin username password role) db).2.admins).Nodup) ∧
    (∀ (ctx1 ctx2 : Ctx) (auth1 auth2 : Option String) (user1 user2 : Claims) (db : Db)
        (username password1 password2 hash : String) (role1 role2 : JsVal),
      verifyAdmin sys ctx1.now auth1 = .next user1 →
      verifyAdmin sys ctx2.now auth2 = .next user2 →
      (∀ a ∈ db.admins, a.username ≠ username) →
      ctx1.dbFault 0 = none → ctx1.dbFault 1 = none → ctx2.dbFault 0 = none →
      sys.lib.bcryptHash password1 10 ctx1.salt = .ok hash →
      serve sys ctx1 auth1 (.createAdmin username password1 role1) db
        = (.responded 200 (.insertResult ctx1.freshId),
            { db with admins := db.admins ++
              [{ id := ctx1.freshId, username := username, password := hash, role := role1 }] }) ∧
      serve sys ctx2 auth2 (.createAdmin username password2 role2)
          (serve sys ctx1 auth1 (.createAdmin username password1 role1) db).2
        = (.responded 400 (.error "Admin already exists"),
            (serve sys ctx1 auth1 (.createAdmin username password1 role1) db).2) ∧
      ((serve sys ctx2 auth2 (.createAdmin username password2 role2)
          (serve sys ctx1 auth1 (.createAdmin username password1 role1) db).2).2.admins.filter
            (fun a => decide (a.username = username)))
        = [{ id := ctx1.freshId, username := username, password := hash, role := role1 }]) := by
  constructor
  · intro ctx authorization db username password role hnd
    cases hgate : verifyAdmin sys ctx.now authorization with
    | deny status message => simpa [serve, guarded, hgate] using hnd
    | next user =>
      simp only [serve, guarded, hgate, createAdmin]
      cases hfault : ctx.dbFault 0 with
      | some e => simpa [driverCall] using hnd
      | none =>
        cases hfind : findOne db.admins username with
        | some existing => simpa [driverCall, hfind] using hnd
        | none =>
          have hnew := findOne_eq_none.mp hfind
          cases hhash : sys.lib.bcryptHash password 10 ctx.salt with
          | error e => simpa [driverCall, hfind] using hnd
          | ok hashed =>
            cases hfault1 : ctx.dbFault 1 with
            | some e => simpa [driverCall, hfind] using hnd
            | none =>
              simp only [driverCall, hfind]
              unfold usernames at hnd ⊢
              rw [List.map_append, List.nodup_append]
              refine ⟨hnd, by simp, ?_⟩
              intro a ha hb
              simp at hb
              obtain ⟨x, hx, hxa⟩ := List.mem_map.mp ha
              exact hnew x hx (hxa.trans hb)
  · intro ctx1 ctx2 auth1 auth2 user1 user2 db username password1 password2 hash role1 role2
      hauth1 hauth2 hnew hf0 hf1 hg0 hhash
    have hfind : findOne db.admins username = none := findOne_eq_none.mpr hnew
    have hfirst : serve sys ctx1 auth1 (.createAdmin username password1 role1) db
        = (.responded 200 (.insertResult ctx1.freshId),
            { db with admins := db.admins ++
              [{ id := ctx1.freshId, username := username, password := hash,
                 role := role1 }] }) := by
      simp [serve, guarded, hauth1, createAdmin, hf0, hf1, driverCall, hfind, hhash]
    have hfind2 : findOne (db.admins ++
        [{ id := ctx1.freshId, username := username, password := hash, role := role1 }])
        username
        = some { id := ctx1.freshId, username := username, password := hash, role := role1 } :=
      findOne_after_split username _ rfl [] db.admins hnew
    have hsecond : serve sys ctx2 auth2 (.createAdmin username password2 role2)
        { db with admins := db.admins ++
          [{ id := ctx1.freshId, username := username, password := hash, role := role1 }] }
        = (.responded 400 (.error "Admin already exists"),
          { db with admins := db.admins ++
            [{ id := ctx1.freshId, username := username, password := hash,
               role := role1 }] }) := by
      simp [serve, guarded, hauth2, createAdmin, hg0, driverCall, hfind2]
    rw [hfirst]
    refine ⟨rfl, hsecond, ?_⟩
    simp only [hsecond]
    rw [List.filter_append]
    have hnone : db.admins.filter (fun a => decide (a.username = username)) = [] := by
      rw [List.filter_eq_nil_iff]
      intro a ha
      simpa using hnew a ha
    simp [hnone]

/-- C6, an instance: `carol` created twice on `sampleDb`. -/
theorem createAdmin_keeps_usernames_unique_witness :
    (usernames (serve sampleSys (sampleCtx 5) (some "Bearer alice.admin")
      (.createAdmin "alice" "x" .null) sampleDb).2.admins).Nodup ∧
    serve sampleSys (sampleCtx 6) (some "Bearer alice.admin") (.createAdmin "carol" "pw2" .null)
        (serve sampleSys (sampleCtx 5) (some "Bearer alice.admin")
          (.createAdmin "carol" "pw1" (.str "admin")) sampleDb).2
      = (.responded 400 (.error "Admin already exists"),
          (serve sampleSys (sampleCtx 5) (some "Bearer alice.admin")
            (.createAdmin "carol" "pw1" (.str "admin")) sampleDb).2) :=
  ⟨(createAdmin_keeps_usernames_unique sampleSys).1 (sampleCtx 5) (some "Bearer alice.admin")
      sampleDb "alice" "x" .null (by decide),
    ((createAdmin_keeps_usernames_unique sampleSys).2 (sampleCtx 5) (sampleCtx 6)
      (some "Bearer alice.admin") (some "Bearer alice.admin")
      { username := .str "alice", role := .str "admin", iat := some 0, exp := some 3600 }
      { username := .str "alice", role := .str "admin", iat := some 0, exp := some 3600 }
      sampleDb "carol" "pw1" "pw2" "$2b$pw1" (.str "admin") .null
      (by decide) (by decide) (by decide) rfl rfl rfl rfl).2.1⟩

/-- Creating `carol` twice on `sampleDb`: an insert, then the conflict. -/
theorem createAdmin_twice :
    serve sampleSys (sampleCtx 5) (some "Bearer alice.admin")
        (.createAdmin "carol" "pw1" (.str "admin")) sampleDb
      = (.responded 200 (.insertResult 7),
          { admins := [{ id := 1, username := "alice", password := "$2b$pw", role := .str "admin" },
              { id := 7, username := "carol", password := "$2b$pw1", role := .str "admin" }],
            questions := [] }) ∧
    (serve sampleSys (sampleCtx 6) (some "Bearer alice.admin") (.createAdmin "carol" "pw2" .null)
        (serve sampleSys (sampleCtx 5) (some "Bearer alice.admin")
          (.createAdmin "carol" "pw1" (.str "admin")) sampleDb).2).1
      = .responded 400 (.error "Admin already exists") := by
  decide

/-! ## Deleting by identifier -/

theorem newObjectId_of_hex (reads12 : Bool) {id : String} (h : isObjectIdHex id = true) :
    newObjectId reads12 id = .ok (objectIdOfHex id) := by
  have hlen : id.toList.length = 24 := by
    unfold isObjectIdHex at h
    rw [Bool.and_eq_true] at h
    exact of_decide_eq_true h.1
  have hl : (reads12 && decide (id.toList.length = 12)) = false := by
    rw [hlen]
    cases reads12 <;> rfl
  unfold newObjectId
  rw [hl, h]
  rfl

theorem newObjectId_throws (reads12 : Bool) {id : String} (hlen : id.toList.length ≠ 12)
    (h : isObjectIdHex id = false) : ∃ e, newObjectId reads12 id = .error e := by
  have hl : (reads12 && decide (id.toList.length = 12)) = false := by
    rw [decide_eq_false hlen]
    cases reads12 <;> rfl
  unfold newObjectId
  rw [hl, h]
  cases reads12 with
  | true => exact ⟨_, rfl⟩
  | false => exact ⟨_, rfl⟩

/-- C7 (as amended): for every authorised DeleteAdmin(id) or DeleteQuestion(id)
with its non-empty `id`, whose driver call returns, on every release of the
driver: if `id` is 24
hexadecimal digits and no record of the collection has the id they denote, the
response is the deletion result with a deleted count of 0 and the database is
unchanged; if `id` is not 24 hexadecimal digits and not 12 characters long, the
response is 500 with `Failed to delete admin` or `Failed to delete question`
and the database is unchanged. -/
theorem delete_of_absent_identifier (sys : Sys) (ctx : Ctx) (authorization : Option String)
    (user : Claims) (db : Db) (collection : Collection) (id : String)
    (hauth : verifyAdmin sys ctx.now authorization = .next user)
    (hdb : ctx.dbFault 0 = none)
    (_hid : id ≠ "") :
    (isObjectIdHex id = true → (∀ x ∈ collection.ids db, x ≠ objectIdOfHex id) →
      serve sys ctx authorization (collection.deleteCall id) db
        = (.responded 200 (.deleteResult 0), db)) ∧
    (isObjectIdHex id = false → id.toList.length ≠ 12 →
      serve sys ctx authorization (collection.deleteCall id) db
        = (.responded 500 (.error collection.deleteFailure), db)) := by
  constructor
  · intro hhex habsent
    have hoid := newObjectId_of_hex sys.reads12 hhex
    cases collection with
    | admins =>
      have hno : ∀ a ∈ db.admins, a.id ≠ objectIdOfHex id := fun a ha =>
        habsent a.id (List.mem_map_of_mem _ ha)
      have hany : db.admins.any (fun a => decide (a.id = objectIdOfHex id)) = false := by
        rw [List.any_eq_false]
        intro a ha
        simpa using hno a ha
      have herase : deleteAdminById (objectIdOfHex id) db.admins = db.admins :=
        eraseP_of_no_match _ db.admins (fun a ha => by simpa using hno a ha)
      simp [Collection.deleteCall, serve, guarded, hauth, deleteAdmin, hoid, hdb, driverCall,
        hany, herase]
    | questions =>
      have hno : ∀ q ∈ db.questions, q.id ≠ objectIdOfHex id := fun q hq =>
        habsent q.id (List.mem_map_of_mem _ hq)
      have hany : db.questions.any (fun q => decide (q.id = objectIdOfHex id)) = false := by
        rw [List.any_eq_false]
        intro q hq
        simpa using hno q hq
      have herase : deleteQuestionById (objectIdOfHex id) db.questions = db.questions :=
        eraseP_of_no_match _ db.questions (fun q hq => by simpa using hno q hq)
      simp [Collection.deleteCall, serve, guarded, hauth, deleteQuestion, hoid, hdb,
        driverCall, hany, herase]
  · intro hhex hlen
    obtain ⟨e, he⟩ := newObjectId_throws sys.reads12 hlen hhex
    cases collection with
    | admins =>
      simp [Collection.deleteCall, Collection.deleteFailure, serve, guarded, hauth,
        deleteAdmin, he]
    | questions =>
      simp [Collection.deleteCall, Collection.deleteFailure, serve, guarded, hauth,
        deleteQuestion, he]

/-- C7, an instance on `quizDb`, whose records have the ids 1 and 2: the id
`0000000000000000000000ff` matches neither, and both routes answer with a
deleted count of 0; the id `abc` meets 500 on both. -/
theorem delete_of_absent_identifier_witness :
    serve sampleSys (sampleCtx 5) (some "Bearer alice.admin")
        (.deleteAdmin "0000000000000000000000ff") quizDb
      = (.responded 200 (.deleteResult 0), quizDb) ∧
    serve sampleSys (sampleCtx 5) (some "Bearer alice.admin")
        (.deleteQuestion "0000000000000000000000ff") quizDb
      = (.responded 200 (.deleteResult 0), quizDb) ∧
    serve sampleSys (sampleCtx 5) (some "Bearer alice.admin") (.deleteAdmin "abc") quizDb
      = (.responded 500 (.error "Failed to delete admin"), quizDb) ∧
    serve sampleSys (sampleCtx 5) (some "Bearer alice.admin") (.deleteQuestion "abc") quizDb
      = (.responded 500 (.error "Failed to delete question"), quizDb) :=
  ⟨(delete_of_absent_identifier sampleSys (sampleCtx 5) (some "Bearer alice.admin")
      { username := .str "alice", role := .str "admin", iat := some 0, exp := some 3600 }
      quizDb .admins "0000000000000000000000ff" (by decide) rfl (by decide)).1
      (by decide) (by decide),
    (delete_of_absent_identifier sampleSys (sampleCtx 5) (some "Bearer alice.admin")
      { username := .str "alice", role := .str "admin", iat := some 0, exp := some 3600 }
      quizDb .questions "0000000000000000000000ff" (by decide) rfl (by decide)).1
      (by decide) (by decide),
    (delete_of_absent_identifier sampleSys (sampleCtx 5) (some "Bearer alice.admin")
      { username := .str "alice", role := .str "admin", iat := some 0, exp := some 3600 }
      quizDb .admins "abc" (by decide) rfl (by decide)).2 (by decide) (by decide),
    (delete_of_absent_identifier sampleSys (sampleCtx 5) (some "Bearer alice.admin")
      { username := .str "alice", role := .str "admin", iat := some 0, exp := some 3600 }
      quizDb .questions "abc" (by decide) rfl (by decide)).2 (by decide) (by decide)⟩

/-- A well-formed id is read as the number it denotes, in either case of the
digits and on either release; the same id that matches a record deletes it. -/
theorem delete_well_formed_identifier :
    newObjectId false "0000000000000000000000ff" = .ok 255 ∧
    newObjectId true "0000000000000000000000FF" = .ok 255 ∧
    serve sampleSys (sampleCtx 5) (some "Bearer alice.admin")
        (.deleteQuestion "000000000000000000000002") quizDb
      = (.responded 200 (.deleteResult 1), { quizDb with questions := [] }) := by
  decide

/-- C7 as stated fails: the id `abc` is the identifier of no record of `quizDb`
(`new ObjectId("abc")` throws on every release of the driver), the requests are
authorised and the driver calls return, yet both delete routes answer with the
error response 500 instead of a deletion result with count 0. -/
theorem delete_malformed_identifier_counterexample :
    verifyAdmin sampleSys (sampleCtx 5).now (some "Bearer alice.admin") = .next
      { username := .str "alice", role := .str "admin", iat := some 0, exp := some 3600 } ∧
    (sampleCtx 5).dbFault 0 = none ∧
    (newObjectId false "abc").toOption = none ∧ (newObjectId true "abc").toOption = none ∧
    serve sampleSys (sampleCtx 5) (some "Bearer alice.admin") (.deleteAdmin "abc") quizDb
      = (.responded 500 (.error "Failed to delete admin"), quizDb) ∧
    serve sampleSys (sampleCtx 5) (some "Bearer alice.admin") (.deleteQuestion "abc") quizDb
      = (.responded 500 (.error "Failed to delete question"), quizDb) ∧
    serve sampleSys12 (sampleCtx 5) (some "Bearer alice.admin") (.deleteAdmin "abc") quizDb
      = (.responded 500 (.error "Failed to delete admin"), quizDb) ∧
    serve sampleSys12 (sampleCtx 5) (some "Bearer alice.admin") (.deleteQuestion "abc") quizDb
      = (.responded 500 (.error "Failed to delete question"), quizDb) := by
  decide

/-! ## ForgotPassword -/

/-- C8: ForgotPassword, with any `Authorization` header or none, when its calls
return. If no record has the username it answers 404 and the database is
unchanged. If one has, it answers `Password reset successfully`; the first
record of that username gets the `bcrypt.hash` of `newPassword` as its password
and is otherwise as before, every other record and the questions are as before;
and a Login with `newPassword` that follows, `bcrypt.compare` accepting the
password against its own hash, is answered with the token `jwt.sign` issues. -/
theorem forgotPassword_then_login (sys : Sys) (ctx : Ctx) (authorization : Option String)
    (db : Db) (username newPassword : String)
    (hdb0 : ctx.dbFault 0 = none) (hdb1 : ctx.dbFault 1 = none) :
    ((∀ a ∈ db.admins, a.username ≠ username) →
      serve sys ctx authorization (.forgotPassword username newPassword) db
        = (.responded 404 (.error "Admin not found"), db)) ∧
    (∀ admin hash, findOne db.admins username = some admin →
      sys.lib.bcryptHash newPassword 10 ctx.salt = .ok hash →
      ∃ before after, db.admins = before ++ admin :: after ∧
        (∀ a ∈ before, a.username ≠ username) ∧
        serve sys ctx authorization (.forgotPassword username newPassword) db
          = (.responded 200 (.message "Password reset successfully"),
              { admins := before ++
                  { id := admin.id, username := admin.username, password := hash,
                    role := admin.role } :: after,
                questions := db.questions }) ∧
        ∀ (ctx2 : Ctx) (auth2 : Option String) (token : String),
          ctx2.dbFault 0 = none →
          sys.lib.bcryptCompare newPassword hash = .ok true →
          sys.lib.jwtSign username "admin" (JWT_SECRET sys) oneHour ctx2.now = .ok token →
          (serve sys ctx2 auth2 (.login username newPassword)
            (serve sys ctx authorization (.forgotPassword username newPassword) db).2).1
            = .responded 200 (.token token)) := by
  constructor
  · intro habsent
    have hfind : findOne db.admins username = none := findOne_eq_none.mpr habsent
    simp [serve, forgotPassword, hdb0, driverCall, hfind]
  · intro admin hash hfind hhash
    obtain ⟨before, after, hsplit, hbefore⟩ := findOne_split hfind
    have hname : admin.username = username := (findOne_some hfind).2
    have hset : setPassword username hash db.admins
        = before ++ { id := admin.id, username := admin.username, password := hash,
                      role := admin.role } :: after := by
      rw [hsplit]
      exact setPassword_split username hash admin hname after before hbefore
    have hserve : serve sys ctx authorization (.forgotPassword username newPassword) db
        = (.responded 200 (.message "Password reset successfully"),
            { admins := before ++
                { id := admin.id, username := admin.username, password := hash,
                  role := admin.role } :: after,
              questions := db.questions }) := by
      simp [serve, forgotPassword, hdb0, hdb1, driverCall, hfind, hhash, hset]
    refine ⟨before, after, hsplit, hbefore, hserve, ?_⟩
    intro ctx2 auth2 token hdb2 hcompare hsign
    rw [hserve]
    have hfind2 : findOne (before ++
        { id := admin.id, username := admin.username, password := hash,
          role := admin.role } :: after) username
        = some { id := admin.id, username := admin.username, password := hash,
                 role := admin.role } :=
      findOne_after_split username
        { id := admin.id, username := admin.username, password := hash, role := admin.role }
        hname after before hbefore
    simp only [serve, login, hdb2, driverCall, hfind2, hcompare]
    simp only [hname, hsign]

/-- C8, an instance: `alice` resets her password to `new123` without a header
and logs in with it. -/
theorem forgotPassword_then_login_witness :
    serve sampleSys (sampleCtx 5) none (.forgotPassword "carol" "new123") sampleDb
      = (.responded 404 (.error "Admin not found"), sampleDb) ∧
    (serve sampleSys (sampleCtx 9) none (.login "alice" "new123")
      (serve sampleSys (sampleCtx 5) none (.forgotPassword "alice" "new123") sampleDb).2).1
      = .responded 200 (.token "alice.admin") := by
  have h := forgotPassword_then_login sampleSys (sampleCtx 5) none sampleDb "carol" "new123"
    rfl rfl
  have h2 := forgotPassword_then_login sampleSys (sampleCtx 5) none sampleDb "alice" "new123"
    rfl rfl
  refine ⟨h.1 (by decide), ?_⟩
  obtain ⟨_, _, _, _, _, hlogin⟩ := h2.2
    { id := 1, username := "alice", password := "$2b$pw", role := .str "admin" } "$2b$new123"
    (by decide) (by decide)
  exact hlogin (sampleCtx 9) none "alice.admin" rfl (by decide) (by decide)

/-- The reset of `alice` on `sampleDb`: the stored password is the hash. -/
theorem forgotPassword_alice :
    serve sampleSys (sampleCtx 5) none (.forgotPassword "alice" "new123") sampleDb
      = (.responded 200 (.message "Password reset successfully"),
          { admins := [{ id := 1, username := "alice", password := "$2b$new123",
                         role := .str "admin" }],
            questions := [] }) := by
  decide

/-! ## Failures inside a handler -/

/-- Every route other than Login answers, whatever the libraries and the driver
do: each of those handlers wraps its body in `try`/`catch`. -/
theorem handlers_with_try_always_respond (sys : Sys) (ctx : Ctx)
    (authorization : Option String) (call : Call) (db : Db)
    (hcall : ∀ username password, call ≠ .login username password) :
    ∃ status body, (serve sys ctx authorization call db).1 = .responded status body := by
  cases call with
  | login username password => exact absurd rfl (hcall username password)
  | createAdmin username password role =>
    simp only [serve, guarded]
    cases verifyAdmin sys ctx.now authorization with
    | deny status message => exact ⟨_, _, rfl⟩
    | next user =>
      simp only [createAdmin]
      cases driverCall (ctx.dbFault 0) (findOne db.admins username) with
      | error e => exact ⟨_, _, rfl⟩
      | ok found =>
        cases found with
        | some existing => exact ⟨_, _, rfl⟩
        | none =>
          cases sys.lib.bcryptHash password 10 ctx.salt with
          | error e => exact ⟨_, _, rfl⟩
          | ok hashed =>
            cases driverCall (ctx.dbFault 1) () with
            | error e => exact ⟨_, _, rfl⟩
            | ok _ => exact ⟨_, _, rfl⟩
  | allAdmins =>
    simp only [serve, guarded]
    cases verifyAdmin sys ctx.now authorization with
    | deny status message => exact ⟨_, _, rfl⟩
    | next user =>
      simp only [allAdmins]
      cases driverCall (ctx.dbFault 0) db.admins with
      | error e => exact ⟨_, _, rfl⟩
      | ok _ => exact ⟨_, _, rfl⟩
  | deleteAdmin id =>
    simp only [serve, guarded]
    cases verifyAdmin sys ctx.now authorization with
    | deny status message => exact ⟨_, _, rfl⟩
    | next user =>
      simp only [deleteAdmin]
      cases newObjectId sys.reads12 id with
      | error e => exact ⟨_, _, rfl⟩
      | ok oid =>
        cases driverCall (ctx.dbFault 0) () with
        | error e => exact ⟨_, _, rfl⟩
        | ok _ => exact ⟨_, _, rfl⟩
  | updatePassword username newPassword =>
    simp only [serve, guarded]
    cases verifyAdmin sys ctx.now authorization with
    | deny status message => exact ⟨_, _, rfl⟩
    | next user =>
      simp only [updatePassword]
      cases sys.lib.bcryptHash newPassword 10 ctx.salt with
      | error e => exact ⟨_, _, rfl⟩
      | ok hashed =>
        cases driverCall (ctx.dbFault 0) () with
        | error e => exact ⟨_, _, rfl⟩
        | ok _ => exact ⟨_, _, rfl⟩
  | forgotPassword username newPassword =>
    simp only [serve, forgotPassword]
    cases driverCall (ctx.dbFault 0) (findOne db.admins username) with
    | error e => exact ⟨_, _, rfl⟩
    | ok found =>
      cases found with
      | none => exact ⟨_, _, rfl⟩
      | some existing =>
        cases sys.lib.bcryptHash newPassword 10 ctx.salt with
        | error e => exact ⟨_, _, rfl⟩
        | ok hashed =>
          cases driverCall (ctx.dbFault 1) () with
          | error e => exact ⟨_, _, rfl⟩
          | ok _ => exact ⟨_, _, rfl⟩
  | addQuestion body =>
    simp only [serve, guarded]
    cases verifyAdmin sys ctx.now authorization with
    | deny status message => exact ⟨_, _, rfl⟩
    | next user =>
      simp only [addQuestion]
      cases newQuestion body with
      | error e => exact ⟨_, _, rfl⟩
      | ok fields =>
        cases driverCall (ctx.dbFault 0) () with
        | error e => exact ⟨_, _, rfl⟩
        | ok _ => exact ⟨_, _, rfl⟩
  | updateQuestion id text options correctOption =>
    simp only [serve, guarded]
    cases verifyAdmin sys ctx.now authorization with
    | deny status message => exact ⟨_, _, rfl⟩
    | next user =>
      simp only [updateQuestion]
      cases newObjectId sys.reads12 id with
      | error e => exact ⟨_, _, rfl⟩
      | ok oid =>
        cases driverCall (ctx.dbFault 0) () with
        | error e => exact ⟨_, _, rfl⟩
        | ok _ => exact ⟨_, _, rfl⟩
  | deleteQuestion id =>
    simp only [serve, guarded]
    cases verifyAdmin sys ctx.now authorization with
    | deny status message => exact ⟨_, _, rfl⟩
    | next user =>
      simp only [deleteQuestion]
      cases newObjectId sys.reads12 id with
      | error e => exact ⟨_, _, rfl⟩
      | ok oid =>
        cases driverCall (ctx.dbFault 0) () with
        | error e => exact ⟨_, _, rfl⟩
        | ok _ => exact ⟨_, _, rfl⟩
  | allQuestions =>
    simp only [serve, allQuestions]
    cases driverCall (ctx.dbFault 0) db.questions with
    | error e => exact ⟨_, _, rfl⟩
    | ok _ => exact ⟨_, _, rfl⟩

/-- Login lets every failure of its three calls out: a rejected `findOne`, a
throwing `bcrypt.compare`, a throwing `jwt.sign`. -/
theorem login_lets_failures_out (sys : Sys) (ctx : Ctx) (authorization : Option String)
    (db : Db) (username password : String) (e : Failure) :
    (ctx.dbFault 0 = some e →
      serve sys ctx authorization (.login username password) db = (.uncaught e, db)) ∧
    (∀ admin, ctx.dbFault 0 = none → findOne db.admins username = some admin →
      sys.lib.bcryptCompare password admin.password = .error e →
      serve sys ctx authorization (.login username password) db = (.uncaught e, db)) ∧
    (∀ admin, ctx.dbFault 0 = none → findOne db.admins username = some admin →
      sys.lib.bcryptCompare password admin.password = .ok true →
      sys.lib.jwtSign admin.username "admin" (JWT_SECRET sys) oneHour ctx.now = .error e →
      serve sys ctx authorization (.login username password) db = (.uncaught e, db)) := by
  refine ⟨?_, ?_, ?_⟩
  · intro h
    simp [serve, login, h, driverCall]
  · intro admin h hfind hcompare
    simp [serve, login, h, driverCall, hfind, hcompare]
  · intro admin h hfind hcompare hsign
    simp [serve, login, h, driverCall, hfind, hcompare, hsign]

/-- C9 fails on Login: with the database unreachable, `findOne` rejects inside
the Login handler and the error leaves it with no response sent, while the same
failure inside ListQuestions becomes a 500 response. -/
theorem login_database_failure_unanswered :
    serve sampleSys unreachableCtx none (.login "alice" "pw") sampleDb
      = (.uncaught "MongoServerSelectionError: connect ECONNREFUSED", sampleDb) ∧
    serve sampleSys unreachableCtx none .allQuestions sampleDb
      = (.responded 500 (.error "Failed to retrieve questions"), sampleDb) := by
  decide

end TrafficMaster
